import Mathlib

/-
Verification of the Algerian-Law-RAG frontend against its specification.

This file gives a shallow embedding, in Lean 4, of the JavaScript code of the
repository that the claims talk about:

  * `src/frontend/src/services/apiClient.js`  (`chatStream`)
  * `src/unnamed/part_005`                    (the chat `App`:
      `handleSendMessage`, the nested `attemptApiCall` with its 404-recovery
      branch, and the SSE read loop)
  * `src/frontend/src/components/InputArea.jsx` (`handleSubmit`)
  * `src/evaluation-interface/src/api/evaluations.js` (`fetchGeneratedAnswers`)
  * `src/evaluation-interface/src/api/mock.js` (`generateDummyAnswers`,
      `simulateFetch`, and the `moveCandidate` list operation of
      `useEvaluations`)

JavaScript strings are modelled as `String` or as `List Char` (for the byte
level SSE stream, where induction over characters is needed), JS objects as
structures or association lists of JSON values, thrown exceptions as
`Except`, and `fetch` as a function from the request's conversation id to an
abstract `HttpResponse` supplied as a parameter.  React state updates are
modelled by explicit state passing of the fields the claims mention
(`messages`, `isLoading`, `isInputCentered`, `currentConversationId`);
purely visual bookkeeping (toasts, the conversations sidebar list) is not
tracked.
-/

namespace AlgerianLawRag

/-- Characters of a JavaScript string, used for the byte-level SSE model. -/
abbrev Str := List Char

/-- A JSON value as far as the embedded code needs one: the payloads built by
the frontend only ever contain strings, integers and `null`. -/
inductive JVal where
  | str (s : String)
  | num (n : Int)
  | nul
deriving DecidableEq, Repr

/-- Serialization of an `Option Nat` field: `null` or a number, as `JSON.stringify` emits it. -/
def jOfOptNat : Option Nat → JVal
  | none => .nul
  | some n => .num n

/-- Field lookup in a JS object literal modelled as an association list. -/
def jGet (k : String) (o : List (String × JVal)) : Option JVal :=
  (o.find? (fun p => p.1 == k)).map Prod.snd

/-- JS truthiness of an optional string (`undefined` and `""` are falsy). -/
def jsTruthy : Option String → Bool
  | none => false
  | some t => t != ""

/-- JS truthiness of an optional number (`undefined`, `null` and `0` are falsy). -/
def jsTruthyNum : Option Nat → Bool
  | none => false
  | some n => n != 0

/-- JS truthiness of an optional boolean (`undefined` is falsy). -/
def jsTruthyB : Option Bool → Bool
  | none => false
  | some b => b

/-- Leading- and trailing-whitespace removal over a character list. -/
def trimL (l : Str) : Str :=
  ((l.dropWhile Char.isWhitespace).reverse.dropWhile Char.isWhitespace).reverse

/-- Model of `String.prototype.trim`, written over the character list so that it
evaluates by kernel reduction. -/
def jsTrim (s : String) : String :=
  String.mk (trimL s.data)

/-- A `fetch` `Response`, reduced to what the embedded code inspects: the
HTTP status and the sequence of reads its body reader will deliver. -/
structure HttpResponse where
  status : Nat
  body : List Str
deriving DecidableEq, Repr

/-- Model of `Response.ok`: true exactly for a 2xx status. -/
def HttpResponse.ok (r : HttpResponse) : Bool :=
  200 ≤ r.status && r.status ≤ 299

/-- A thrown JS `Error` object: its `message`, plus the dynamic `status` and
`isRetry` properties that `attemptApiCall` in `src/unnamed/part_005` reads
(`none` models the property being absent / `undefined`). -/
structure JSError where
  message : String
  status : Option Nat
  isRetry : Option Bool
deriving DecidableEq, Repr

/-- The HTTP request assembled by `apiClient.chatStream`
(`src/frontend/src/services/apiClient.js`). -/
structure ChatRequest where
  endpoint : String
  headers : List (String × String)
  body : List (String × JVal)
deriving DecidableEq, Repr

/-- The JSON payload of `chatStream`:
`{ message, conversation_id: conversationId, language }`. -/
def chatStreamPayload (message : String) (conversationId : Option Nat)
    (language : String) : List (String × JVal) :=
  [("message", .str message),
   ("conversation_id", jOfOptNat conversationId),
   ("language", .str language)]

/-- Request construction in `apiClient.chatStream`
(`src/frontend/src/services/apiClient.js` lines 4-21): the `language`
parameter has JS default `"auto"` (taken when the argument is `undefined`,
here `none`); the endpoint is `/chat_stream` when `token` is truthy and
`/chat_stream_demo` otherwise, and the `Authorization: Bearer` header is
spread into the header object only when `token` is truthy. -/
def chatStreamRequest (message : String) (conversationId : Option Nat)
    (language : Option String) (token : Option String) : ChatRequest :=
  let lang := language.getD "auto"
  { endpoint := if jsTruthy token then "/chat_stream" else "/chat_stream_demo"
    headers := ("Content-Type", "application/json") ::
      (if jsTruthy token then [("Authorization", "Bearer " ++ token.getD "")] else [])
    body := chatStreamPayload message conversationId lang }

/-- Response handling in `apiClient.chatStream` (lines 23-28): a non-ok
status throws `new Error` with message `` `API error: ${response.status}` ``
— a plain `Error`, so its `status` and `isRetry` properties are absent — and
an ok response is returned as-is, body unconsumed. -/
def chatStreamResponse (response : HttpResponse) : Except JSError HttpResponse :=
  if response.ok then .ok response
  else .error { message := "API error: " ++ toString response.status,
                status := none, isRetry := none }

/- ----------------------------------------------------------------------
SSE stream decoding (`src/unnamed/part_005`, `attemptApiCall` read loop):
each read is decoded, split on `"\n"`, and every line starting with
`"data: "` has its remainder fed to `JSON.parse`; when the parsed object has
a truthy `chunk` field, that text is appended to the accumulator.  There is
no buffering of a partial line across reads.
---------------------------------------------------------------------- -/

/-- Model of `chunk.split("\n")` with JavaScript semantics (`"".split` gives `[""]`,
a trailing separator yields a trailing empty line). -/
def splitNl : Str → List Str
  | [] => [[]]
  | c :: rest =>
    if c = '\n' then [] :: splitNl rest
    else
      match splitNl rest with
      | [] => [[c]]
      | l :: ls => (c :: l) :: ls

/-- The single-character JSON string escapes understood by `JSON.parse`:
the letter after the backslash maps to the character it denotes. -/
def unescapeChar (e : Char) : Option Char :=
  if e = 'n' then some '\n'
  else if e = 't' then some '\t'
  else if e = 'r' then some '\r'
  else if e = '"' then some '"'
  else if e = '\\' then some '\\'
  else if e = '/' then some '/'
  else if e = 'b' then some '\x08'
  else if e = 'f' then some '\x0c'
  else none

/-- Body of a JSON string literal, after the opening quote: returns the
decoded contents and the remainder after the closing quote, or `none` on a
malformed literal (as `JSON.parse` would throw).  `\uXXXX` escapes are not
modelled; the frames the backend emits never need them for the characters
the claims exercise. -/
def parseJsonStringAux : Str → Option (Str × Str)
  | [] => none
  | c :: rest =>
    if c = '"' then some ([], rest)
    else if c = '\\' then
      match rest with
      | [] => none
      | e :: rest2 =>
        match unescapeChar e, parseJsonStringAux rest2 with
        | some u, some (s, r) => some (u :: s, r)
        | _, _ => none
    else
      match parseJsonStringAux rest with
      | some (s, r) => some (c :: s, r)
      | none => none

/-- JSON insignificant whitespace. -/
def skipWs (s : Str) : Str :=
  s.dropWhile (fun c => c = ' ' ∨ c = '\t' ∨ c = '\n' ∨ c = '\r')

/-- Model of `JSON.parse` restricted to the envelope shape the backend emits,
followed by the `data.chunk` field access: `some v` exactly when the input
is a JSON object with the single string field `chunk` holding `v`.  Any
other input makes the loop's `try { ... } catch` skip the line, which is
also what `none` produces here. -/
def parseChunkObj (l : Str) : Option Str :=
  match skipWs l with
  | '\x7b' :: r1 =>
    match skipWs r1 with
    | '"' :: r2 =>
      match parseJsonStringAux r2 with
      | none => none
      | some (key, r3) =>
        if key = "chunk".data then
          match skipWs r3 with
          | ':' :: r4 =>
            match skipWs r4 with
            | '"' :: r5 =>
              match parseJsonStringAux r5 with
              | none => none
              | some (v, r6) =>
                match skipWs r6 with
                | '\x7d' :: r7 => if skipWs r7 = [] then some v else none
                | _ => none
            | _ => none
          | _ => none
        else none
    | _ => none
  | _ => none

/-- The `"data: "` marker the read loop looks for (6 characters). -/
def dataMarker : Str := "data: ".data

/-- What one line of a read contributes to `displayedText`: lines starting
with `"data: "` are sliced past the marker and parsed; a parse failure or a
falsy `chunk` contributes nothing. -/
def lineChunk (line : Str) : Str :=
  if dataMarker.isPrefixOf line then
    match parseChunkObj (line.drop 6) with
    | some v => v
    | none => []
  else []

/-- Text contributed by one transport read: split on newlines, process each
line. -/
def processRead (s : Str) : Str :=
  ((splitNl s).map lineChunk).flatten

/-- Accumulated `displayedText` after draining the reader: reads are processed one by
one, each against a fresh split, with no carry-over of partial lines. -/
def processReads (reads : List Str) : Str :=
  (reads.map processRead).flatten

/-- JSON string escaping for the characters the serializer must escape. -/
def escapeChar (c : Char) : Str :=
  if c = '"' then ['\\', '"']
  else if c = '\\' then ['\\', '\\']
  else if c = '\n' then ['\\', 'n']
  else if c = '\r' then ['\\', 'r']
  else if c = '\t' then ['\\', 't']
  else [c]

/-- A JSON string literal for `s`. -/
def encodeJsonString (s : Str) : Str :=
  '"' :: (s.map escapeChar).flatten ++ ['"']

/-- The one-field JSON object of a frame: `{"chunk": "<escaped text>"}`. -/
def chunkObjText (c : Str) : Str :=
  '\x7b' :: '"' :: ("chunk".data ++ '"' :: ':' :: ' ' ::
    (encodeJsonString c ++ ['\x7d']))

/-- Modelled from the spec: the backend emitter of the streamed response is
not under `src/` (only its documented wire format is: one self-contained
frame `data: {"chunk": "..."}` per fragment, §6 of the spec and the repo
README).  A frame is the `data: ` marker followed by the one-field JSON
object. -/
def chunkFrame (c : Str) : Str :=
  dataMarker ++ chunkObjText c

/-- Modelled from the spec: a transport read consisting of whole frames,
each terminated by the SSE blank line (`\n\n`). -/
def readOf (frames : List Str) : Str :=
  (frames.map (fun c => chunkFrame c ++ ['\n', '\n'])).flatten

/- ----------------------------------------------------------------------
`attemptApiCall` (`src/unnamed/part_005` lines 169-260) and the enclosing
`handleSendMessage` (lines 132-278).
---------------------------------------------------------------------- -/

/-- The nested `attemptApiCall(conversationId, isRetry)` of
`handleSendMessage` in `src/unnamed/part_005`: call `apiClient.chatStream`
(the fifth `isRetry` argument is ignored by `chatStream`, which declares
only four parameters), drain the SSE reader into `displayedText`, and in the
`catch` retry exactly when `error.status === 404 && !error.isRetry &&
conversationId` — re-invoking itself with `(null, true)` — otherwise
rethrow.  `respFor` abstracts the network: the response the backend gives to
an attempt carrying that conversation id.  The returned list collects the
requests actually issued, in order. -/
def attemptApiCall (respFor : Option Nat → HttpResponse) (userMessage : String)
    (queryLanguage : String) (token : Option String)
    (conversationId : Option Nat) (isRetry : Bool) :
    List ChatRequest × Except JSError Str :=
  let req := chatStreamRequest userMessage conversationId (some queryLanguage) token
  match chatStreamResponse (respFor conversationId) with
  | .ok response => ([req], .ok (processReads response.body))
  | .error error =>
    if h : error.status = some 404 ∧ jsTruthyB error.isRetry = false ∧
        jsTruthyNum conversationId = true then
      let retried := attemptApiCall respFor userMessage queryLanguage token none true
      (req :: retried.1, retried.2)
    else
      ([req], .error error)
termination_by conversationId.elim 0 fun _ => 1
decreasing_by
  obtain ⟨-, -, hs⟩ := h
  cases conversationId with
  | none => simp [jsTruthyNum] at hs
  | some _ => simp [Option.elim]

/-- A chat message as kept in the `messages` React state. -/
structure Message where
  role : String
  content : String
deriving DecidableEq, Repr

/-- The slice of the `App` component state that `handleSendMessage` reads
and writes. -/
structure ChatState where
  messages : List Message
  isLoading : Bool
  isInputCentered : Bool
  currentConversationId : Option Nat
deriving DecidableEq, Repr

/-- Model of `updated[updated.length - 1] = { ...last, content }`: replace the
content of the last message, leaving an empty list unchanged. -/
def updateLast : List Message → String → List Message
  | [], _ => []
  | [m], c => [{ m with content := c }]
  | m :: m2 :: rest, c => m :: updateLast (m2 :: rest) c

/-- Content of the last message, if any. -/
def lastContent (msgs : List Message) : Option String :=
  msgs.getLast?.map Message.content

/-- The error text installed by the outer `catch` of `handleSendMessage`
(`src/unnamed/part_005` lines 263-274):
`` `Error: ${error.message || "Error communicating with server"}. Make sure
backend is running at http://localhost:5000` ``. -/
def handleCatchContent (e : JSError) : String :=
  "Error: " ++ (if e.message = "" then "Error communicating with server" else e.message)
    ++ ". Make sure backend is running at http://localhost:5000"

/-- Model of `handleSendMessage(text, queryLanguage = "auto")` of
`src/unnamed/part_005`, projected onto the state fields the claims concern.
The guard `if (!text.trim() || isLoading) return;` leaves the state
untouched and issues no request.  Otherwise the user message and an empty
assistant placeholder are appended, `attemptApiCall(currentConversationId)`
runs, the placeholder ends up holding either the accumulated stream text or
the `catch` error text, and the `finally` clears `isLoading`.  Returns the
final state together with the requests issued. -/
def handleSendMessage (respFor : Option Nat → HttpResponse) (token : Option String)
    (text : String) (queryLanguage : Option String) (st : ChatState) :
    ChatState × List ChatRequest :=
  if jsTrim text = "" ∨ st.isLoading then (st, [])
  else
    let ql := queryLanguage.getD "auto"
    let userMessage := text
    let updatedMessages := st.messages ++
      [{ role := "user", content := userMessage },
       { role := "assistant", content := "" }]
    match attemptApiCall respFor userMessage ql token st.currentConversationId false with
    | (reqs, .ok displayedText) =>
      ({ st with isInputCentered := false, isLoading := false,
                 messages := updateLast updatedMessages (String.mk displayedText) }, reqs)
    | (reqs, .error error) =>
      ({ st with isInputCentered := false, isLoading := false,
                 messages := updateLast updatedMessages (handleCatchContent error) }, reqs)

/-- Model of `handleSubmit` of `src/frontend/src/components/InputArea.jsx` (lines
20-25): `onSend(text, queryLanguage)` fires only when `text.trim()` is
truthy and no request is loading; the emitted pair is what
`handleSendMessage` receives. -/
def handleSubmit (text queryLanguage : String) (isLoading : Bool) :
    Option (String × String) :=
  if jsTrim text ≠ "" ∧ isLoading = false then some (text, queryLanguage) else none

/-- The request body posted by the legacy direct-`fetch` sender in
`src/frontend/src/App.jsx` `handleSendMessage` (lines 119-130):
`{ message, conversation_id, model_version_id: "default-model-v1" }`. -/
def legacyChatBody (userMessage : String) (conversationId : Option Nat) :
    List (String × JVal) :=
  [("message", .str userMessage),
   ("conversation_id", jOfOptNat conversationId),
   ("model_version_id", .str "default-model-v1")]

/- ----------------------------------------------------------------------
The legacy SSE loop and catch of `src/frontend/src/App.jsx`
`handleSendMessage` (lines 103-207): lines are filtered with
`startsWith("data:")`, the tag is stripped with `replace(/^data:\s*/, "")`
and the line trimmed — but the JSON envelope is never parsed; the loop body
appends the raw line text plus a space (stopping at a `[DONE]` line), and
the `catch` only raises `alert("Error connecting to the assistant.")`,
leaving the message list as it was.
---------------------------------------------------------------------- -/

/-- The 5-character `data:` tag the legacy filter tests with
`startsWith("data:")` (no trailing space, unlike the parsing loop's
marker). -/
def legacyDataTag : Str := "data:".data

/-- Model of `line.replace(/^data:\s*/, "")` for a line that passed the
filter: remove the 5-character tag and any whitespace following it. -/
def stripDataTag (l : Str) : Str :=
  (l.drop 5).dropWhile Char.isWhitespace

/-- The `for (const line of lines)` body of the legacy loop: a `[DONE]`
line breaks out of this read's lines; every other line is appended raw,
followed by a space. -/
def legacyProcessLines : List Str → Str
  | [] => []
  | l :: rest =>
    if l = "[DONE]".data then []
    else l ++ ' ' :: legacyProcessLines rest

/-- One transport read as the legacy loop processes it: split on newlines,
keep the `data:` lines, strip the tag and trim each, then run the
accumulation body.  No JSON parsing happens. -/
def legacyProcessRead (s : Str) : Str :=
  legacyProcessLines (((splitNl s).filter
    (fun l => legacyDataTag.isPrefixOf l)).map (fun l => trimL (stripDataTag l)))

/-- Accumulated `displayedText` of the legacy loop over all reads. -/
def legacyProcessReads (reads : List Str) : Str :=
  (reads.map legacyProcessRead).flatten

/-- Model of the legacy `handleSendMessage` of `src/frontend/src/App.jsx`,
projected like `handleSendMessage`: identical guard; a non-ok (or
body-less) response throws `` `Server error: ...` `` and the `catch` only
raises a browser `alert` — the message list keeps the empty assistant
placeholder; an ok response accumulates the raw `data:` line texts and
installs `displayedText.trim()` as the final content; the `finally` clears
`isLoading`.  Returns the final state and the alert text, if any. -/
def legacyHandleSendMessage (resp : HttpResponse) (text : String) (st : ChatState) :
    ChatState × Option String :=
  if jsTrim text = "" ∨ st.isLoading then (st, none)
  else
    let updatedMessages := st.messages ++
      [{ role := "user", content := text }, { role := "assistant", content := "" }]
    if resp.ok then
      let displayedText := legacyProcessReads resp.body
      ({ st with isInputCentered := false, isLoading := false,
                 messages := updateLast updatedMessages (String.mk (trimL displayedText)) },
       none)
    else
      ({ st with isInputCentered := false, isLoading := false,
                 messages := updatedMessages },
       some "Error connecting to the assistant.")

/- ----------------------------------------------------------------------
Language Router (spec §4.1).  The backend that implements `resolve` is not
part of the sources under `src/`; it is modelled from the spec.
---------------------------------------------------------------------- -/

/-- The two response languages of the spec (`A` is the Latin-script corpus
language, frontend code `"fr"`; `B` the Arabic-script one, code `"ar"`). -/
inductive SpecLanguage where
  | A
  | B
deriving DecidableEq, Repr

/-- How a `LanguageDecision` was reached (spec §3). -/
inductive ResolveMethod where
  | explicitChoice
  | keywordOverride
  | scriptDetection
deriving DecidableEq, Repr

/-- Record `LanguageDecision` of spec §3. -/
structure LanguageDecision where
  resolved_language : SpecLanguage
  method : ResolveMethod
deriving DecidableEq, Repr

/-- Modelled from the spec: the Language Router's `resolve(text,
explicit_language)` (spec §4.1) lives in the backend, which is absent from
`src/`.  Per the spec: an explicit A or B is returned immediately with
method `explicit`; otherwise a fixed phrase table may override; otherwise
the majority script wins, ties and zero classifiable characters falling
back to the configured language.  The phrase table and the per-language
character classifiers are unspecified constants of the spec and are taken
as parameters. -/
def resolve (keywordFor : String → Option SpecLanguage)
    (countScriptA countScriptB : String → Nat) (fallback : SpecLanguage)
    (text : String) (explicit_language : Option SpecLanguage) : LanguageDecision :=
  match explicit_language with
  | some l => { resolved_language := l, method := .explicitChoice }
  | none =>
    match keywordFor text with
    | some l => { resolved_language := l, method := .keywordOverride }
    | none =>
      if countScriptA text > countScriptB text then
        { resolved_language := .A, method := .scriptDetection }
      else if countScriptB text > countScriptA text then
        { resolved_language := .B, method := .scriptDetection }
      else
        { resolved_language := fallback, method := .scriptDetection }

/-- The frontend's language codes (`InputArea.jsx` offers exactly
`["auto", "fr", "ar"]`) mapped to the spec's languages; `"auto"` and
anything else carry no explicit choice. -/
def codeToLang : String → Option SpecLanguage
  | "fr" => some .A
  | "ar" => some .B
  | _ => none

/- ----------------------------------------------------------------------
Evaluation interface: `fetchGeneratedAnswers`
(`src/evaluation-interface/src/api/evaluations.js` lines 6-68),
`generateDummyAnswers` (`src/evaluation-interface/src/api/mock.js`) and
`moveCandidate` (the `useEvaluations` hook).
---------------------------------------------------------------------- -/

/-- A candidate answer as the evaluation frontend keeps it (the shape built
both by the API transform in `fetchGeneratedAnswers` and by
`generateDummyAnswers`).  `id` is a `JVal` because the API path stores the
backend's numeric id while the dummy path stores a generated string.
`evaluationId` and `metadata` are `none` (JS `undefined`) on the dummy
path. -/
structure Answer where
  id : JVal
  text : String
  modelId : String
  confidence : Rat
  citations : List String
  rank : Nat
  evaluationId : Option Nat
  metadata : Option String
deriving DecidableEq, Repr

/-- The candidate-independent part of an `Answer` (everything except the
mutable `rank` field). -/
def Answer.core (a : Answer) :
    JVal × String × String × Rat × List String × Option Nat × Option String :=
  (a.id, a.text, a.modelId, a.confidence, a.citations, a.evaluationId, a.metadata)

/-- A candidate row as returned by the evaluation backend.  `mockVariant`
stands for the parsed `JSON.parse(candidate.response_json).mock_variant`
(`none` when `response_json` is falsy). -/
structure BackendCandidate where
  id : Nat
  response_text : String
  model_version_id : String
  mockVariant : Option Nat
  metadata : Option String
deriving DecidableEq, Repr

/-- The observable result of the three backend calls inside the `try` block
of `fetchGeneratedAnswers`: any of the create / generate / details steps
failing (non-ok status or a network throw), or success with the returned
candidates. -/
inductive FetchOutcome where
  | createFailed
  | generateFailed (evaluationId : Nat)
  | detailsFailed (evaluationId : Nat)
  | success (evaluationId : Nat) (candidates : List BackendCandidate)
deriving DecidableEq, Repr

/-- The `try` block of `fetchGeneratedAnswers`: each failed step throws the
corresponding `Error`. -/
def fetchTry (outcome : FetchOutcome) : Except String (Nat × List BackendCandidate) :=
  match outcome with
  | .createFailed => .error "Failed to create evaluation"
  | .generateFailed _ => .error "Failed to generate candidates"
  | .detailsFailed _ => .error "Failed to fetch evaluation details"
  | .success evaluationId candidates => .ok (evaluationId, candidates)

/-- Local version of `Except.isOk`. -/
def isOkE {ε α : Type} : Except ε α → Bool
  | .ok _ => true
  | .error _ => false

instance {ε α : Type} [DecidableEq ε] [DecidableEq α] : DecidableEq (Except ε α) :=
  fun a b =>
    match a, b with
    | .ok x, .ok y =>
      if h : x = y then isTrue (by rw [h]) else isFalse (by intro hc; cases hc; exact h rfl)
    | .error x, .error y =>
      if h : x = y then isTrue (by rw [h]) else isFalse (by intro hc; cases hc; exact h rfl)
    | .ok _, .error _ => isFalse (by intro hc; cases hc)
    | .error _, .ok _ => isFalse (by intro hc; cases hc)

/-- The per-candidate transform of the success path of
`fetchGeneratedAnswers`: `confidence` is `mock_variant / 10` when
`response_json` is truthy and `0.8` otherwise; `citations` is hard-coded
empty; `rank` is `index + 1`. -/
def transformCandidate (evaluationId : Nat) (index : Nat) (c : BackendCandidate) :
    Answer :=
  { id := .num c.id
    text := c.response_text
    modelId := c.model_version_id
    confidence := match c.mockVariant with
      | some mv => (mv : Rat) / 10
      | none => 8 / 10
    citations := []
    rank := index + 1
    evaluationId := some evaluationId
    metadata := c.metadata }

/-- Character-level scan replacing the first occurrence of `pat`. -/
def replaceOnceL : Str → Str → Str → Str
  | [], _, _ => []
  | c :: rest, pat, sub =>
    if pat.isPrefixOf (c :: rest) then sub ++ (c :: rest).drop pat.length
    else c :: replaceOnceL rest pat sub

/-- JS `String.prototype.replace` with a string pattern: replaces the first
occurrence only. -/
def jsReplaceOnce (s pat sub : String) : String :=
  String.mk (replaceOnceL s.data pat.data sub.data)

/-- One template row of `generateDummyAnswers` in
`src/evaluation-interface/src/api/mock.js`. -/
structure DummyTemplate where
  text : String
  score : Rat
  citations : List String
deriving DecidableEq, Repr

/-- The five templates of `mock.js` (scores are the JS float literals read
as rationals; no arithmetic is done on them). -/
def dummyTemplates : List DummyTemplate :=
  [⟨"Based on the documentation, \x7bquery\x7d involves...", 92 / 100, ["doc_1", "doc_3"]⟩,
   ⟨"The answer to \x7bquery\x7d is that it depends on...", 88 / 100, ["doc_2"]⟩,
   ⟨"To address \x7bquery\x7d, you should consider...", 85 / 100, ["doc_1", "doc_4"]⟩,
   ⟨"In the context of \x7bquery\x7d, research shows...", 81 / 100, ["doc_3", "doc_5"]⟩,
   ⟨"The most effective approach to \x7bquery\x7d would be...", 79 / 100, ["doc_2", "doc_4"]⟩]

/-- Model of `generateDummyAnswers(query, n)` of `mock.js`: `n` answers built from
the template table cyclically (`templates[i % templates.length]`), with ids
`` `answer_${Date.now()}_${i}` `` (the clock reading is the `now`
parameter), model ids `` `model_${String.fromCharCode(65 + (i % 3))}` ``,
and ranks `i + 1`.  The `i % 5` index is always in range; `getD` supplies an
unreachable default. -/
def generateDummyAnswers (query : String) (n : Nat) (now : Nat) : List Answer :=
  (List.range n).map (fun i =>
    let t := dummyTemplates.getD (i % 5) ⟨"", 0, []⟩
    { id := .str ("answer_" ++ toString now ++ "_" ++ toString i)
      text := jsReplaceOnce t.text "\x7bquery\x7d" query
      modelId := "model_" ++ String.mk [Char.ofNat (65 + (i % 3))]
      confidence := t.score
      citations := t.citations
      rank := i + 1
      evaluationId := none
      metadata := none })

/-- Model of `fetchGeneratedAnswers(query, numAnswers, ...)` of `evaluations.js`: the
`try` block runs the three backend steps and maps the candidates; the
`catch` logs and returns `generateDummyAnswers(query, numAnswers)` instead
of rethrowing (`simulateFetch` merely delays and resolves).  The overall
function therefore never produces an `error`. -/
def fetchGeneratedAnswers (outcome : FetchOutcome) (query : String)
    (numAnswers : Nat) (now : Nat) : Except String (List Answer) :=
  match fetchTry outcome with
  | .ok (evaluationId, candidates) =>
    .ok (candidates.mapIdx (fun index c => transformCandidate evaluationId index c))
  | .error _ => .ok (generateDummyAnswers query numAnswers now)

/-- The target index `direction === 'up' ? index - 1 : index + 1` of
`moveCandidate`, computed in `Int` so that `-1` is representable. -/
def moveTarget (index : Nat) (direction : String) : Int :=
  if direction = "up" then (index : Int) - 1 else (index : Int) + 1

/-- Model of `newCandidates.forEach((c, i) => c.rank = i + 1)`, starting at `i`. -/
def renumber : Nat → List Answer → List Answer
  | _, [] => []
  | i, a :: rest => { a with rank := i + 1 } :: renumber (i + 1) rest

/-- An arbitrary `Answer`, used as the (unreachable at call sites) `getD`
default when reading a list position. -/
def defaultAnswer : Answer :=
  ⟨.nul, "", "", 0, [], 0, none, none⟩

/-- Model of `moveCandidate(index, direction)` of the `useEvaluations` hook: compute
the target index, return the list unchanged when it falls outside the list
bounds, otherwise swap the two candidates and renumber every rank to its
1-based position.  (As at every call site, `index` itself is a valid
position; `getD`'s default is unreachable then.) -/
def moveCandidate (candidates : List Answer) (index : Nat) (direction : String) :
    List Answer :=
  let newIndex := moveTarget index direction
  if newIndex < 0 ∨ (candidates.length : Int) ≤ newIndex then candidates
  else
    let j := newIndex.toNat
    let swapped := (candidates.set index (candidates.getD j defaultAnswer)).set j
      (candidates.getD index defaultAnswer)
    renumber 0 swapped

/-- The backend behaviour exhibiting the broken 404 recovery: any attempt
that still carries a conversation id is answered 404, while the retry the
Recovery Controller is supposed to issue (no conversation id) would succeed
with a one-chunk stream. -/
def recovery404Response : Option Nat → HttpResponse :=
  fun conversationId =>
    match conversationId with
    | some _ => { status := 404, body := [] }
    | none => { status := 200, body := ["data: \x7b\"chunk\": \"ok\"\x7d\n\n".data] }

/- ======================================================================
Theorems
====================================================================== -/

/-- Claim C8: on a non-ok response, `chatStream` throws a plain `Error`
whose message is `"API error: "` followed by the status code, carrying
neither a `status` nor an `isRetry` property; on an ok response it returns
the `Response` object itself, body unconsumed. -/
theorem chatStream_error_shape (response : HttpResponse) :
    (response.ok = false →
      chatStreamResponse response
        = .error { message := "API error: " ++ toString response.status,
                   status := none, isRetry := none }) ∧
    (response.ok = true → chatStreamResponse response = .ok response) := by
  constructor <;> intro h <;> simp [chatStreamResponse, h]

theorem chatStream_error_shape_witness :
    chatStreamResponse { status := 404, body := [] }
      = .error { message := "API error: " ++ toString 404,
                 status := none, isRetry := none } ∧
    chatStreamResponse { status := 200, body := [] }
      = .ok { status := 200, body := [] } :=
  ⟨(chatStream_error_shape { status := 404, body := [] }).1 (by decide),
   (chatStream_error_shape { status := 200, body := [] }).2 (by decide)⟩

/-- Claim C9, counterexample: a supplied-but-empty token is falsy in JS, so
the request goes to the demo endpoint with no `Authorization` header even
though a token argument was supplied — the "if and only if a token argument
is supplied" direction fails at `token = ""`. -/
theorem chatStream_empty_token_counterexample :
    (some "" : Option String).isSome = true ∧
    (chatStreamRequest "hello" none (some "auto") (some "")).endpoint
      = "/chat_stream_demo" ∧
    (chatStreamRequest "hello" none (some "auto") (some "")).headers
      = [("Content-Type", "application/json")] := by decide

/-- Claim C9 (amended): the request carries an `Authorization: Bearer`
header and targets `/chat_stream` exactly when a non-empty token is
supplied; with no token, or an empty one, it targets `/chat_stream_demo`
and carries no `Authorization` header. -/
theorem chatStream_endpoint_auth (message : String) (conversationId : Option Nat)
    (language : Option String) :
    (∀ t : String, t ≠ "" →
      (chatStreamRequest message conversationId language (some t)).endpoint
        = "/chat_stream" ∧
      (chatStreamRequest message conversationId language (some t)).headers
        = [("Content-Type", "application/json"), ("Authorization", "Bearer " ++ t)]) ∧
    (∀ token : Option String, jsTruthy token = false →
      (chatStreamRequest message conversationId language token).endpoint
        = "/chat_stream_demo" ∧
      (chatStreamRequest message conversationId language token).headers
        = [("Content-Type", "application/json")]) := by
  constructor
  · intro t ht
    have htt : jsTruthy (some t) = true := by simp [jsTruthy, ht]
    constructor <;> simp [chatStreamRequest, htt]
  · intro token htok
    constructor <;> simp [chatStreamRequest, htok]

theorem chatStream_endpoint_auth_witness :
    (chatStreamRequest "hi" none none (some "tok")).endpoint = "/chat_stream" ∧
    (chatStreamRequest "hi" none none (some "tok")).headers
      = [("Content-Type", "application/json"), ("Authorization", "Bearer " ++ "tok")] ∧
    (chatStreamRequest "hi" none none none).endpoint = "/chat_stream_demo" :=
  ⟨((chatStream_endpoint_auth "hi" none none).1 "tok" (by decide)).1,
   ((chatStream_endpoint_auth "hi" none none).1 "tok" (by decide)).2,
   ((chatStream_endpoint_auth "hi" none none).2 none (by decide)).1⟩

/-- Claim C3, counterexample: the direct-`fetch` sender in
`src/frontend/src/App.jsx` posts a body whose fields are `message`,
`conversation_id`, `model_version_id` — it has no `language` field, so not
every request sent to the pipeline entry point has exactly the claimed
shape. -/
theorem legacy_request_shape_counterexample :
    ((legacyChatBody "hello" none).map Prod.fst
      = ["message", "conversation_id", "model_version_id"]) ∧
    jGet "language" (legacyChatBody "hello" none) = none ∧
    ((legacyChatBody "hello" none).map Prod.fst
      ≠ ["message", "conversation_id", "language"]) := by decide

/-- Claim C3 (amended): every request built by `apiClient.chatStream` is a
JSON object with exactly the fields `message`, `conversation_id`,
`language`, in that order, and when the caller passes no language the field
defaults to `"auto"`. -/
theorem chatStream_payload_fields (message : String) (conversationId : Option Nat)
    (language : String) (token : Option String) :
    ((chatStreamPayload message conversationId language).map Prod.fst
      = ["message", "conversation_id", "language"]) ∧
    (chatStreamRequest message conversationId none token).body
      = chatStreamPayload message conversationId "auto" := by
  constructor
  · simp [chatStreamPayload]
  · simp [chatStreamRequest]

/-- Claim C5: `fetchGeneratedAnswers` never propagates an error — whatever
the backend steps do, it returns `ok`, and whenever any backend step fails
the result is exactly the locally generated `generateDummyAnswers`
fallback. -/
theorem fetchGeneratedAnswers_never_throws (outcome : FetchOutcome) (query : String)
    (numAnswers now : Nat) :
    isOkE (fetchGeneratedAnswers outcome query numAnswers now) = true ∧
    (isOkE (fetchTry outcome) = false →
      fetchGeneratedAnswers outcome query numAnswers now
        = .ok (generateDummyAnswers query numAnswers now)) := by
  cases outcome <;> simp [fetchGeneratedAnswers, fetchTry, isOkE]

theorem fetchGeneratedAnswers_never_throws_witness :
    isOkE (fetchGeneratedAnswers .createFailed "q" 3 0) = true ∧
    fetchGeneratedAnswers .createFailed "q" 3 0 = .ok (generateDummyAnswers "q" 3 0) :=
  ⟨(fetchGeneratedAnswers_never_throws .createFailed "q" 3 0).1,
   (fetchGeneratedAnswers_never_throws .createFailed "q" 3 0).2 (by decide)⟩

/-- Claim C1: at the failing input — a request carrying conversation
reference 42, a backend that answers 404 to it but would answer a
successful stream to a retry without the reference — `attemptApiCall`
surfaces the terminal `"API error: 404"` after a single request and issues
no retry: the recovery branch compares `error.status` to 404, but the error
`chatStream` throws carries no `status` property.  The second conjunct
shows the retry prescribed by the claim would have succeeded. -/
theorem conversation404_no_retry :
    attemptApiCall recovery404Response "hello" "auto" (some "tok") (some 42) false
      = ([chatStreamRequest "hello" (some 42) (some "auto") (some "tok")],
         .error { message := "API error: " ++ toString 404,
                  status := none, isRetry := none }) ∧
    (attemptApiCall recovery404Response "hello" "auto" (some "tok") none true).2
      = .ok "ok".data := by
  constructor
  · unfold attemptApiCall
    simp [recovery404Response, chatStreamResponse, HttpResponse.ok]
  · unfold attemptApiCall
    simp [recovery404Response, chatStreamResponse, HttpResponse.ok]
    decide

/-- The non-empty last element of `updateLast` is the new content. -/
theorem lastContent_updateLast (msgs : List Message) (c : String) (h : msgs ≠ []) :
    lastContent (updateLast msgs c) = some c := by
  induction msgs with
  | nil => exact absurd rfl h
  | cons m rest ih =>
    cases rest with
    | nil => simp [updateLast, lastContent]
    | cons m2 rest2 =>
      have htail := ih (by simp)
      obtain ⟨x, xs, hx⟩ : ∃ x xs, updateLast (m2 :: rest2) c = x :: xs := by
        cases rest2 <;> simp [updateLast]
      rw [show updateLast (m :: m2 :: rest2) c = m :: updateLast (m2 :: rest2) c from rfl]
      rw [hx] at htail ⊢
      simpa [lastContent] using htail

/-- Claim C6, counterexample: in the legacy client of
`src/frontend/src/App.jsx`, a terminal failure (HTTP 500, nothing streamed)
only raises a browser alert; the assistant-visible message keeps the empty
placeholder content — it is not replaced by an error message, so the
claim's universal statement fails at this cited caller. -/
theorem legacy_failure_leaves_answer_empty :
    (legacyHandleSendMessage { status := 500, body := [] } "hi"
        { messages := [], isLoading := false, isInputCentered := true,
          currentConversationId := none }).2
      = some "Error connecting to the assistant." ∧
    lastContent (legacyHandleSendMessage { status := 500, body := [] } "hi"
        { messages := [], isLoading := false, isInputCentered := true,
          currentConversationId := none }).1.messages
      = some "" := by
  decide

/-- Claim C6 (amended): in the authenticated chat client (part_005) a
terminal pipeline failure replaces the assistant-visible result with the
catch block's explicit error text, which always begins with `"Error: "` and
is never the empty string — distinguishable from a normal empty answer; the
legacy client in `src/frontend/src/App.jsx` instead only raises a browser
alert on failure and keeps the freshly appended messages unchanged, so the
assistant placeholder stays empty. -/
theorem terminal_error_distinguishable (msgs : List Message) (e : JSError)
    (resp : HttpResponse) (text : String) (st : ChatState)
    (h : msgs ≠ []) :
    (∃ rest, lastContent (updateLast msgs (handleCatchContent e))
        = some ("Error: " ++ rest) ∧ "Error: " ++ rest ≠ "") ∧
    (resp.ok = false → st.isLoading = false → jsTrim text ≠ "" →
      (legacyHandleSendMessage resp text st).1.messages
        = st.messages ++
          [{ role := "user", content := text }, { role := "assistant", content := "" }] ∧
      (legacyHandleSendMessage resp text st).2
        = some "Error connecting to the assistant.") := by
  constructor
  · refine ⟨(if e.message = "" then "Error communicating with server" else e.message)
        ++ ". Make sure backend is running at http://localhost:5000", ?_, ?_⟩
    · rw [lastContent_updateLast _ _ h]
      simp [handleCatchContent, String.append_assoc]
    · intro hc
      have := congrArg String.length hc
      simp [String.length_append] at this
      exact absurd this.1 (by decide)
  · intro hok hld htr
    have hng : ¬(jsTrim text = "" ∨ st.isLoading = true) := by
      simp [htr, hld]
    constructor <;> simp [legacyHandleSendMessage, hng, hok]

theorem terminal_error_distinguishable_witness :
    (∃ rest,
      lastContent (updateLast
        [{ role := "user", content := "hi" }, { role := "assistant", content := "" }]
        (handleCatchContent { message := "API error: 500", status := none, isRetry := none }))
        = some ("Error: " ++ rest) ∧ "Error: " ++ rest ≠ "") ∧
    (legacyHandleSendMessage { status := 500, body := [] } "yo"
        { messages := [], isLoading := false, isInputCentered := true,
          currentConversationId := none }).2
      = some "Error connecting to the assistant." :=
  ⟨(terminal_error_distinguishable
      [{ role := "user", content := "hi" }, { role := "assistant", content := "" }]
      { message := "API error: 500", status := none, isRetry := none }
      { status := 500, body := [] } "yo"
      { messages := [], isLoading := false, isInputCentered := true,
        currentConversationId := none } (by decide)).1,
   ((terminal_error_distinguishable
      [{ role := "user", content := "hi" }, { role := "assistant", content := "" }]
      { message := "API error: 500", status := none, isRetry := none }
      { status := 500, body := [] } "yo"
      { messages := [], isLoading := false, isInputCentered := true,
        currentConversationId := none } (by decide)).2
      (by decide) rfl (by decide)).2⟩

/-- Lemma: `attemptApiCall` always issues at least the first request. -/
theorem attemptApiCall_fst_ne_nil (respFor : Option Nat → HttpResponse)
    (m ql : String) (tok : Option String) (cid : Option Nat) (isRetry : Bool) :
    (attemptApiCall respFor m ql tok cid isRetry).1 ≠ [] := by
  unfold attemptApiCall
  cases h : chatStreamResponse (respFor cid) with
  | ok r => simp
  | error e =>
    by_cases hg : e.status = some 404 ∧ jsTruthyB e.isRetry = false ∧
        jsTruthyNum cid = true
    · simp [hg]
    · simp [hg]

/-- Claim C7: a send attempt while a request is in flight, or with blank
text, is rejected both by the input component (`handleSubmit` emits
nothing) and by `handleSendMessage` (state unchanged, no request issued);
an accepted send issues requests and ends — on success or on error — with
the in-flight flag cleared. -/
theorem single_inflight_guard (respFor : Option Nat → HttpResponse)
    (token : Option String) (text qls : String) (queryLanguage : Option String)
    (st : ChatState) :
    handleSubmit text qls true = none ∧
    (st.isLoading = true ∨ jsTrim text = "" →
      handleSendMessage respFor token text queryLanguage st = (st, [])) ∧
    (st.isLoading = false → jsTrim text ≠ "" →
      (handleSendMessage respFor token text queryLanguage st).1.isLoading = false ∧
      (handleSendMessage respFor token text queryLanguage st).2 ≠ []) := by
  refine ⟨?_, ?_, ?_⟩
  · simp [handleSubmit]
  · rintro (h | h) <;> simp [handleSendMessage, h]
  · intro h1 h2
    have hng : ¬(jsTrim text = "" ∨ st.isLoading = true) := by simp [h1, h2]
    have hne := attemptApiCall_fst_ne_nil respFor text (queryLanguage.getD "auto")
      token st.currentConversationId false
    rcases hA : attemptApiCall respFor text (queryLanguage.getD "auto") token
        st.currentConversationId false with ⟨reqs, out⟩
    rw [hA] at hne
    cases out <;> simp [handleSendMessage, hng, hA] <;> exact hne

theorem single_inflight_guard_witness :
    handleSubmit "hello" "auto" true = none ∧
    handleSendMessage recovery404Response none "hello" none
        { messages := [], isLoading := true, isInputCentered := true,
          currentConversationId := none }
      = ({ messages := [], isLoading := true, isInputCentered := true,
           currentConversationId := none }, []) ∧
    (handleSendMessage recovery404Response none "hello" none
        { messages := [], isLoading := false, isInputCentered := true,
          currentConversationId := none }).1.isLoading = false :=
  ⟨(single_inflight_guard recovery404Response none "hello" "auto" none
      { messages := [], isLoading := true, isInputCentered := true,
        currentConversationId := none }).1,
   (single_inflight_guard recovery404Response none "hello" "auto" none
      { messages := [], isLoading := true, isInputCentered := true,
        currentConversationId := none }).2.1 (Or.inl rfl),
   ((single_inflight_guard recovery404Response none "hello" "auto" none
      { messages := [], isLoading := false, isInputCentered := true,
        currentConversationId := none }).2.2 rfl (by decide)).1⟩

/-- Every request `chatStream` builds carries the caller's `language` value
in its `language` field. -/
theorem chatStreamRequest_language (m : String) (cid : Option Nat) (ql : String)
    (tok : Option String) :
    jGet "language" (chatStreamRequest m cid (some ql) tok).body = some (.str ql) := rfl

/-- Both the original attempt and any 404 retry of `attemptApiCall` send the
caller's `queryLanguage` unchanged. -/
theorem attemptApiCall_language (respFor : Option Nat → HttpResponse)
    (m ql : String) (tok : Option String) :
    ∀ (cid : Option Nat) (isRetry : Bool) req,
      req ∈ (attemptApiCall respFor m ql tok cid isRetry).1 →
      jGet "language" req.body = some (.str ql) := by
  have noneCase : ∀ (isRetry : Bool) req,
      req ∈ (attemptApiCall respFor m ql tok none isRetry).1 →
      jGet "language" req.body = some (.str ql) := by
    intro isRetry req hreq
    unfold attemptApiCall at hreq
    cases h : chatStreamResponse (respFor none) with
    | ok r =>
      rw [h] at hreq
      simp at hreq
      rw [hreq]
      exact chatStreamRequest_language m none ql tok
    | error e =>
      rw [h] at hreq
      simp [jsTruthyNum] at hreq
      rw [hreq]
      exact chatStreamRequest_language m none ql tok
  intro cid
  cases cid with
  | none => exact noneCase
  | some n =>
    intro isRetry req hreq
    unfold attemptApiCall at hreq
    cases h : chatStreamResponse (respFor (some n)) with
    | ok r =>
      rw [h] at hreq
      simp at hreq
      rw [hreq]
      exact chatStreamRequest_language m (some n) ql tok
    | error e =>
      rw [h] at hreq
      by_cases hg : e.status = some 404 ∧ jsTruthyB e.isRetry = false ∧
          jsTruthyNum (some n) = true
      · simp [hg] at hreq
        rcases hreq with hreq | hreq
        · rw [hreq]
          exact chatStreamRequest_language m (some n) ql tok
        · exact noneCase true req hreq
      · simp [hg] at hreq
        rw [hreq]
        exact chatStreamRequest_language m (some n) ql tok

/-- Claim C4: an explicit language preference (`"fr"` or `"ar"`, the codes
of languages A and B) makes the spec's `resolve` return that language with
method `explicit` regardless of the query text, and the preference the
input component emits reaches every request `handleSendMessage` issues with
its `language` field unchanged. -/
theorem explicit_language_preserved
    (keywordFor : String → Option SpecLanguage)
    (countScriptA countScriptB : String → Nat) (fallback : SpecLanguage)
    (queryText text ql : String) (l : SpecLanguage)
    (respFor : Option Nat → HttpResponse) (token : Option String) (st : ChatState)
    (hl : codeToLang ql = some l)
    (hsubmit : handleSubmit text ql st.isLoading = some (text, ql)) :
    resolve keywordFor countScriptA countScriptB fallback queryText (codeToLang ql)
      = { resolved_language := l, method := .explicitChoice } ∧
    ∀ req ∈ (handleSendMessage respFor token text (some ql) st).2,
      jGet "language" req.body = some (.str ql) := by
  constructor
  · rw [hl]
    simp [resolve]
  · intro req hreq
    have hguard : jsTrim text ≠ "" ∧ st.isLoading = false := by
      by_contra hc
      unfold handleSubmit at hsubmit
      rw [if_neg hc] at hsubmit
      cases hsubmit
    have hng : ¬(jsTrim text = "" ∨ st.isLoading = true) := by
      simp [hguard.1, hguard.2]
    rcases hA : attemptApiCall respFor text ql token
        st.currentConversationId false with ⟨reqs, out⟩
    have hreqs : (handleSendMessage respFor token text (some ql) st).2 = reqs := by
      cases out <;> simp [handleSendMessage, hng, hA]
    rw [hreqs] at hreq
    have := attemptApiCall_language respFor text ql token st.currentConversationId
      false req
    rw [hA] at this
    exact this hreq

theorem explicit_language_preserved_witness :
    resolve (fun _ => none) (fun _ => 0) (fun _ => 0) .A "Resume article 15"
        (codeToLang "ar")
      = { resolved_language := .B, method := .explicitChoice } ∧
    ∀ req ∈ (handleSendMessage recovery404Response none "hello" (some "ar")
        { messages := [], isLoading := false, isInputCentered := true,
          currentConversationId := none }).2,
      jGet "language" req.body = some (.str "ar") :=
  explicit_language_preserved (fun _ => none) (fun _ => 0) (fun _ => 0) .A
    "Resume article 15" "hello" "ar" .B recovery404Response none
    { messages := [], isLoading := false, isInputCentered := true,
      currentConversationId := none } (by decide) (by decide)

/-- Lemma: `renumber` keeps the list length. -/
theorem renumber_length (l : List Answer) : ∀ s, (renumber s l).length = l.length := by
  induction l with
  | nil => intro s; rfl
  | cons a t ih => intro s; simp [renumber, ih]

/-- Lemma: `renumber` writes each element's 1-based position into `rank`. -/
theorem renumber_rank (l : List Answer) :
    ∀ s i, i < (renumber s l).length →
      ((renumber s l).getD i defaultAnswer).rank = s + i + 1 := by
  induction l with
  | nil => intro s i hi; simp [renumber] at hi
  | cons a t ih =>
    intro s i hi
    cases i with
    | zero => simp [renumber]
    | succ i2 =>
      have := ih (s + 1) i2 (by simpa [renumber] using hi)
      simp only [renumber, List.getD_cons_succ]
      rw [this]
      omega

/-- Lemma: `renumber` leaves everything but `rank` untouched. -/
theorem renumber_core (l : List Answer) :
    ∀ s, (renumber s l).map Answer.core = l.map Answer.core := by
  induction l with
  | nil => intro s; rfl
  | cons a t ih => intro s; simp [renumber, ih, Answer.core]

/-- Swapping two adjacent positions is a permutation. -/
theorem swap_adjacent_perm (l : List Answer) :
    ∀ k (_ : k + 1 < l.length) (d : Answer),
      ((l.set k (l.getD (k + 1) d)).set (k + 1) (l.getD k d)).Perm l := by
  induction l with
  | nil => intro k hk d; simp at hk
  | cons a t ih =>
    intro k hk d
    cases k with
    | zero =>
      cases t with
      | nil => simp at hk
      | cons b t2 =>
        simp only [List.getD_cons_succ, List.getD_cons_zero, List.set_cons_zero,
          List.set_cons_succ]
        exact List.Perm.swap a b t2
    | succ k2 =>
      simp only [List.getD_cons_succ, List.set_cons_succ]
      exact List.Perm.cons a (ih k2 (by simpa using hk) d)

/-- The swap inside `moveCandidate` permutes the list, whichever of the two
adjacent positions the target is. -/
theorem moveCandidate_swap_perm (candidates : List Answer) (index : Nat)
    (direction : String) (jn : Nat)
    (hidx : index < candidates.length)
    (h0 : 0 ≤ moveTarget index direction)
    (hlen : moveTarget index direction < (candidates.length : Int))
    (hjn : jn = (moveTarget index direction).toNat) :
    ((candidates.set index (candidates.getD jn defaultAnswer)).set jn
      (candidates.getD index defaultAnswer)).Perm candidates := by
  by_cases hup : direction = "up"
  · have hmt : moveTarget index direction = (index : Int) - 1 := by
      simp [moveTarget, hup]
    rw [hmt] at h0 hjn
    have hji : jn + 1 = index := by omega
    rw [← hji]
    rw [List.set_comm _ _ _ (by omega)]
    exact swap_adjacent_perm candidates jn (by omega) defaultAnswer
  · have hmt : moveTarget index direction = (index : Int) + 1 := by
      simp [moveTarget, hup]
    rw [hmt] at hlen hjn
    have hji : jn = index + 1 := by omega
    rw [hji]
    exact swap_adjacent_perm candidates index (by omega) defaultAnswer

/-- Claim C10: an out-of-bounds target leaves the candidate list unchanged;
an in-bounds `moveCandidate` permutes the candidates (their rank-independent
content) and renumbers every `rank` to the candidate's 1-based position. -/
theorem moveCandidate_perm_ranks (candidates : List Answer) (index : Nat)
    (direction : String) :
    ((moveTarget index direction < 0 ∨
        (candidates.length : Int) ≤ moveTarget index direction) →
      moveCandidate candidates index direction = candidates) ∧
    (index < candidates.length →
      ¬(moveTarget index direction < 0 ∨
          (candidates.length : Int) ≤ moveTarget index direction) →
      ((moveCandidate candidates index direction).map Answer.core).Perm
        (candidates.map Answer.core) ∧
      ∀ i, i < (moveCandidate candidates index direction).length →
        ((moveCandidate candidates index direction).getD i defaultAnswer).rank
          = i + 1) := by
  constructor
  · intro hg
    simp only [moveCandidate]
    rw [if_pos hg]
  · intro hidx hg
    have hg' := hg
    push_neg at hg'
    obtain ⟨h0, hlen⟩ := hg'
    have hmc : moveCandidate candidates index direction
        = renumber 0 ((candidates.set index
            (candidates.getD (moveTarget index direction).toNat defaultAnswer)).set
          (moveTarget index direction).toNat
          (candidates.getD index defaultAnswer)) := by
      simp only [moveCandidate]
      rw [if_neg hg]
    have hswap := moveCandidate_swap_perm candidates index direction
      (moveTarget index direction).toNat hidx h0 hlen rfl
    constructor
    · rw [hmc, renumber_core]
      exact hswap.map Answer.core
    · intro i hi
      rw [hmc] at hi ⊢
      simpa using renumber_rank _ 0 i hi

theorem moveCandidate_perm_ranks_witness :
    moveCandidate [⟨.num 1, "a", "m", 0, [], 1, none, none⟩] 0 "up"
      = [⟨.num 1, "a", "m", 0, [], 1, none, none⟩] ∧
    (((moveCandidate [⟨.num 1, "a", "m", 0, [], 1, none, none⟩,
        ⟨.num 2, "b", "m", 0, [], 2, none, none⟩] 0 "down").map Answer.core).Perm
      (([⟨.num 1, "a", "m", 0, [], 1, none, none⟩,
        ⟨.num 2, "b", "m", 0, [], 2, none, none⟩] : List Answer).map Answer.core) ∧
     ∀ i, i < (moveCandidate [⟨.num 1, "a", "m", 0, [], 1, none, none⟩,
        ⟨.num 2, "b", "m", 0, [], 2, none, none⟩] 0 "down").length →
       ((moveCandidate [⟨.num 1, "a", "m", 0, [], 1, none, none⟩,
        ⟨.num 2, "b", "m", 0, [], 2, none, none⟩] 0 "down").getD i
          defaultAnswer).rank = i + 1) :=
  ⟨(moveCandidate_perm_ranks [⟨.num 1, "a", "m", 0, [], 1, none, none⟩] 0 "up").1
      (by decide),
   (moveCandidate_perm_ranks [⟨.num 1, "a", "m", 0, [], 1, none, none⟩,
      ⟨.num 2, "b", "m", 0, [], 2, none, none⟩] 0 "down").2
      (by decide) (by decide)⟩

/-- The parser closes an (unescaped) quote. -/
theorem pjsa_quote (rest : Str) : parseJsonStringAux ('"' :: rest) = some ([], rest) := by
  rw [parseJsonStringAux.eq_def]
  rfl

/-- The parser steps over a valid escape pair. -/
theorem pjsa_escape (e u : Char) (rest : Str) (hu : unescapeChar e = some u) :
    parseJsonStringAux ('\\' :: e :: rest)
      = match parseJsonStringAux rest with
        | some (s, r) => some (u :: s, r)
        | none => none := by
  rw [parseJsonStringAux.eq_def]
  simp only [hu]
  cases hX : parseJsonStringAux rest with
  | none => rfl
  | some pr => cases pr; rfl

/-- The parser copies an ordinary character. -/
theorem pjsa_other (c : Char) (h1 : c ≠ '"') (h2 : c ≠ '\\') (rest : Str) :
    parseJsonStringAux (c :: rest)
      = match parseJsonStringAux rest with
        | some (s, r) => some (c :: s, r)
        | none => none := by
  rw [parseJsonStringAux.eq_def]
  simp only [h1, h2, if_neg, ite_false]

/-- Decoding a JSON string literal undoes the escaping. -/
theorem parse_encode (c : Str) :
    ∀ rest : Str,
      parseJsonStringAux ((c.map escapeChar).flatten ++ '"' :: rest)
        = some (c, rest) := by
  induction c with
  | nil =>
    intro rest
    simp only [List.map_nil, List.flatten_nil, List.nil_append]
    exact pjsa_quote rest
  | cons ch t ih =>
    intro rest
    simp only [List.map_cons, List.flatten_cons, List.append_assoc]
    by_cases h1 : ch = '"'
    · subst h1
      rw [show escapeChar '"' = ['\\', '"'] from rfl]
      simp only [List.cons_append, List.nil_append]
      rw [pjsa_escape '"' '"' _ rfl, ih rest]
    · by_cases h2 : ch = '\\'
      · subst h2
        rw [show escapeChar '\\' = ['\\', '\\'] from rfl]
        simp only [List.cons_append, List.nil_append]
        rw [pjsa_escape '\\' '\\' _ rfl, ih rest]
      · by_cases h3 : ch = '\n'
        · subst h3
          rw [show escapeChar '\n' = ['\\', 'n'] from rfl]
          simp only [List.cons_append, List.nil_append]
          rw [pjsa_escape 'n' '\n' _ rfl, ih rest]
        · by_cases h4 : ch = '\r'
          · subst h4
            rw [show escapeChar '\r' = ['\\', 'r'] from rfl]
            simp only [List.cons_append, List.nil_append]
            rw [pjsa_escape 'r' '\r' _ rfl, ih rest]
          · by_cases h5 : ch = '\t'
            · subst h5
              rw [show escapeChar '\t' = ['\\', 't'] from rfl]
              simp only [List.cons_append, List.nil_append]
              rw [pjsa_escape 't' '\t' _ rfl, ih rest]
            · rw [show escapeChar ch = [ch] from by
                simp [escapeChar, h1, h2, h3, h4, h5]]
              simp only [List.cons_append, List.nil_append]
              rw [pjsa_other ch h1 h2, ih rest]

/-- The chunk parser inverts the frame's JSON object. -/
theorem parseChunkObj_encode (c : Str) :
    parseChunkObj (chunkObjText c) = some c := by
  have hstep : parseChunkObj (chunkObjText c)
      = (match parseJsonStringAux (((c.map escapeChar).flatten ++ ['"']) ++ ['\x7d']) with
         | none => none
         | some (v, r6) =>
           match skipWs r6 with
           | '\x7d' :: r7 => if skipWs r7 = [] then some v else none
           | _ => none) := rfl
  have hassoc : ((c.map escapeChar).flatten ++ ['"']) ++ ['\x7d']
      = (c.map escapeChar).flatten ++ '"' :: ['\x7d'] := by
    simp
  rw [hstep, hassoc, parse_encode c ['\x7d']]
  rfl

/-- Lemma: `isPrefixOf` accepts its own extension. -/
theorem isPrefixOf_append_self (p x : Str) : p.isPrefixOf (p ++ x) = true := by
  induction p with
  | nil => simp [List.isPrefixOf]
  | cons a t ih => simp [List.isPrefixOf, ih]

/-- Each frame is independently decodable: the read loop recovers exactly
the chunk text from its frame line. -/
theorem lineChunk_chunkFrame (c : Str) : lineChunk (chunkFrame c) = c := by
  rw [lineChunk, chunkFrame]
  rw [show (6 : Nat) = dataMarker.length from rfl]
  simp only [isPrefixOf_append_self, if_true, List.drop_left]
  rw [parseChunkObj_encode]

/-- Escaping never produces a raw newline. -/
theorem escapeChar_ne_newline (ch x : Char) (hx : x ∈ escapeChar ch) : x ≠ '\n' := by
  unfold escapeChar at hx
  split_ifs at hx with h1 h2 h3 h4 h5
  · simp at hx; rcases hx with rfl | rfl <;> decide
  · simp at hx; rcases hx with rfl | rfl <;> decide
  · simp at hx; rcases hx with rfl | rfl <;> decide
  · simp at hx; rcases hx with rfl | rfl <;> decide
  · simp at hx; rcases hx with rfl | rfl <;> decide
  · simp at hx; subst hx; exact h3

/-- A frame contains no raw newline, so the `split("\n")` boundary always
falls between frames. -/
theorem chunkFrame_no_newline (c : Str) : ∀ x ∈ chunkFrame c, x ≠ '\n' := by
  have hflat : ∀ x ∈ (c.map escapeChar).flatten, x ≠ '\n' := by
    intro x hx
    rcases List.mem_flatten.1 hx with ⟨L, hL, hxL⟩
    rcases List.mem_map.1 hL with ⟨ch, _, rfl⟩
    exact escapeChar_ne_newline ch x hxL
  intro x hx
  rw [chunkFrame] at hx
  rcases List.mem_append.1 hx with hx | hx
  · exact (by decide : ∀ y ∈ dataMarker, y ≠ '\n') x hx
  rw [chunkObjText] at hx
  rcases List.mem_cons.1 hx with rfl | hx
  · decide
  rcases List.mem_cons.1 hx with rfl | hx
  · decide
  rcases List.mem_append.1 hx with hx | hx
  · exact (by decide : ∀ y ∈ "chunk".data, y ≠ '\n') x hx
  rcases List.mem_cons.1 hx with rfl | hx
  · decide
  rcases List.mem_cons.1 hx with rfl | hx
  · decide
  rcases List.mem_cons.1 hx with rfl | hx
  · decide
  rcases List.mem_append.1 hx with hx | hx
  · rw [encodeJsonString] at hx
    rcases List.mem_cons.1 hx with rfl | hx
    · decide
    rcases List.mem_append.1 hx with hx | hx
    · exact hflat x hx
    · rcases List.mem_cons.1 hx with rfl | hx
      · decide
      · simp at hx
  · rcases List.mem_cons.1 hx with rfl | hx
    · decide
    · simp at hx

/-- Lemma: `split` over a newline-free line followed by a newline. -/
theorem splitNl_append (l : Str) :
    ∀ rest : Str, (∀ x ∈ l, x ≠ '\n') →
      splitNl (l ++ '\n' :: rest) = l :: splitNl rest := by
  induction l with
  | nil =>
    intro rest _
    simp [splitNl]
  | cons c t ih =>
    intro rest h
    have hc : c ≠ '\n' := h c (by simp)
    have ht : ∀ x ∈ t, x ≠ '\n' := fun x hx => h x (by simp [hx])
    simp only [List.cons_append, splitNl, List.append_eq]
    rw [if_neg hc, ih rest ht]

/-- A read made of whole frames contributes exactly its chunks, in order. -/
theorem processRead_readOf (frames : List Str) :
    processRead (readOf frames) = frames.flatten := by
  induction frames with
  | nil => rfl
  | cons c fs ih =>
    have h1 : readOf (c :: fs) = chunkFrame c ++ '\n' :: '\n' :: readOf fs := by
      simp [readOf, List.append_assoc]
    rw [processRead, h1, splitNl_append _ _ (chunkFrame_no_newline c)]
    have h2 : splitNl ('\n' :: readOf fs) = [] :: splitNl (readOf fs) := by
      simp [splitNl]
    rw [h2]
    simp only [List.map_cons, List.flatten_cons, lineChunk_chunkFrame]
    have h3 : lineChunk [] = [] := rfl
    rw [h3]
    simp only [List.nil_append]
    rw [show ((splitNl (readOf fs)).map lineChunk).flatten = processRead (readOf fs)
      from rfl, ih]

/-- Lemma: a frame's JSON object text is untouched by `trim` (it starts
with a brace and ends with one, neither whitespace). -/
theorem trimL_chunkObjText (c : Str) : trimL (chunkObjText c) = chunkObjText c := by
  have hb : ('\x7b' : Char).isWhitespace = false := by decide
  have he : ('\x7d' : Char).isWhitespace = false := by decide
  have h : chunkObjText c
      = '\x7b' :: (('"' :: ("chunk".data ++ '"' :: ':' :: ' ' :: encodeJsonString c))
          ++ ['\x7d']) := by
    simp [chunkObjText, List.append_assoc]
  rw [h, trimL]
  simp [List.dropWhile_cons, hb, he, List.reverse_append, List.reverse_cons,
    List.reverse_reverse]

/-- Lemma: stripping the legacy tag from a frame line and trimming leaves
exactly the raw JSON object text. -/
theorem trimL_stripDataTag_chunkFrame (c : Str) :
    trimL (stripDataTag (chunkFrame c)) = chunkObjText c := by
  rw [show stripDataTag (chunkFrame c) = chunkObjText c from rfl]
  exact trimL_chunkObjText c

/-- Lemma: a frame's object text is never the `[DONE]` sentinel. -/
theorem chunkObjText_ne_done (c : Str) : chunkObjText c ≠ "[DONE]".data := by
  intro h
  have := congrArg List.head? h
  simp [chunkObjText] at this

/-- A read made of whole frames contributes, under the legacy App.jsx loop,
the raw JSON object text of each frame followed by a space — not the chunk
fields. -/
theorem legacyProcessRead_readOf (frames : List Str) :
    legacyProcessRead (readOf frames)
      = (frames.map (fun c => chunkObjText c ++ [' '])).flatten := by
  induction frames with
  | nil => rfl
  | cons c fs ih =>
    have h1 : readOf (c :: fs) = chunkFrame c ++ '\n' :: '\n' :: readOf fs := by
      simp [readOf, List.append_assoc]
    rw [legacyProcessRead, h1, splitNl_append _ _ (chunkFrame_no_newline c)]
    have h2 : splitNl ('\n' :: readOf fs) = [] :: splitNl (readOf fs) := by
      simp [splitNl]
    rw [h2]
    have hp : legacyDataTag.isPrefixOf (chunkFrame c) = true := rfl
    have hq : legacyDataTag.isPrefixOf ([] : Str) = false := rfl
    rw [show List.filter (fun l => legacyDataTag.isPrefixOf l)
          (chunkFrame c :: [] :: splitNl (readOf fs))
        = chunkFrame c :: List.filter (fun l => legacyDataTag.isPrefixOf l)
            (splitNl (readOf fs)) from by
      simp [List.filter_cons, hp, hq]]
    rw [List.map_cons, trimL_stripDataTag_chunkFrame]
    rw [show legacyProcessLines (chunkObjText c :: (List.filter
          (fun l => legacyDataTag.isPrefixOf l) (splitNl (readOf fs))).map
          (fun l => trimL (stripDataTag l)))
        = chunkObjText c ++ ' ' :: legacyProcessLines ((List.filter
            (fun l => legacyDataTag.isPrefixOf l) (splitNl (readOf fs))).map
            (fun l => trimL (stripDataTag l))) from by
      simp [legacyProcessLines, chunkObjText_ne_done c]]
    rw [show legacyProcessLines ((List.filter
          (fun l => legacyDataTag.isPrefixOf l) (splitNl (readOf fs))).map
          (fun l => trimL (stripDataTag l))) = legacyProcessRead (readOf fs) from rfl, ih]
    simp [List.append_assoc]

/-- Claim C2 (amended): every frame is an independently parseable envelope
whose `chunk` the authenticated client's read loop (part_005) recovers
exactly, and for any batching of the frames into transport reads along
frame boundaries that loop accumulates the concatenation, in emission
order, of the chunk fields (a read splitting a frame mid-line instead drops
that chunk — see the counterexample).  The legacy loop in
`src/frontend/src/App.jsx`, however, never decodes the envelope: on the
same frame-aligned reads it accumulates each frame's raw JSON object text
followed by a space. -/
theorem sse_frame_aligned_accumulation :
    (∀ c : Str, lineChunk (chunkFrame c) = c) ∧
    (∀ groups : List (List Str),
      processReads (groups.map readOf) = groups.flatten.flatten) ∧
    (∀ groups : List (List Str),
      legacyProcessReads (groups.map readOf)
        = (groups.flatten.map (fun c => chunkObjText c ++ [' '])).flatten) := by
  refine ⟨lineChunk_chunkFrame, ?_, ?_⟩
  · intro groups
    induction groups with
    | nil => rfl
    | cons g gs ih =>
      simp only [List.map_cons, processReads, List.flatten_cons, List.flatten_append]
      simp only [processReads] at ih
      rw [processRead_readOf]
      rw [ih]
  · intro groups
    induction groups with
    | nil => rfl
    | cons g gs ih =>
      simp only [List.map_cons, legacyProcessReads, List.flatten_cons,
        List.flatten_append, List.map_append]
      simp only [legacyProcessReads] at ih
      rw [legacyProcessRead_readOf]
      rw [ih]

/-- Claim C2, counterexample: the same byte stream delivered in two reads
that split the single frame mid-line accumulates to the empty string
instead of the frame's chunk — batching into transport reads does change
what the part_005 caller accumulates — and the legacy App.jsx loop, even
handed the frame whole, accumulates the raw envelope text plus a space
rather than the chunk field. -/
theorem sse_partial_read_drops_chunk :
    ("data: \x7b\"chunk\"".data ++ ": \"hi\"\x7d\n".data
      = "data: \x7b\"chunk\": \"hi\"\x7d\n".data) ∧
    processReads ["data: \x7b\"chunk\": \"hi\"\x7d\n".data] = "hi".data ∧
    processReads ["data: \x7b\"chunk\"".data, ": \"hi\"\x7d\n".data] = [] ∧
    legacyProcessReads ["data: \x7b\"chunk\": \"hi\"\x7d\n".data]
      = "\x7b\"chunk\": \"hi\"\x7d ".data ∧
    ("\x7b\"chunk\": \"hi\"\x7d ".data ≠ "hi".data) := by
  decide

end AlgerianLawRag
